import Mathlib

/-!
A shallow embedding in Lean 4 of the core of the Linger language implementation
(parser, desugarer, interpreter), translated from `src/parser.rs`,
`src/desugar.rs`, `src/interpreter.rs` and `src/error.rs`, together with
theorems about the embedded definitions.

Modelling conventions:
* Rust `i64` is modelled as `Int`, with 64-bit wraparound applied where the
  source performs machine arithmetic (`i64_add`).
* Rust `Result<T, E>` is modelled as an explicit result type; a `todo!()` in
  the source (which panics, i.e. aborts the process) is modelled as the
  distinguished outcome `Res.abort`.
* Recursion that is not structural in the source (`while` loops, calls through
  closure values, the recursive-descent parser) is made total with an explicit
  fuel parameter; running out of fuel is the distinguished outcome
  `Res.timeout` (resp. `none` for the parser), an artifact of the embedding
  that corresponds to no behaviour of the source.
* The tokenizer (`tokenizer.rs`) and the environment (`environment.rs`) are
  not part of the sources; their types and operations are modelled from the
  specification, as marked on each such definition.
* `print!` writes to the process's standard output; no theorem here concerns
  the printed text, so the output sink is not modelled: the `Print` builtin
  evaluates its arguments and yields `Void` exactly as in the source.
-/

namespace Linger

/-- Modelled from the spec: the closed operator set of `tokenizer.rs`
(`tokenizer.rs` is not among the sources; the variant names are those used by
`parser.rs`, `desugar.rs` and `interpreter.rs`). -/
inductive Operator where
  | Plus
  | Minus
  | Times
  | Mod
  | Div
  | Eq
  | Ne
  | LT
  | GT
  | LTE
  | GTE
  | LogicOr
  | LogicAnd
  | LogicNot
  | PreIncrement
  | PostIncrement
  | PreDecrement
  | PostDecrement
deriving DecidableEq, Repr

/-- Modelled from the spec: the compound-assignment operator tag of
`tokenizer.rs` (used by `SugaredStatement::OperatorAssignment`; its exact
variants are unknown and are not decisive for any theorem below). -/
inductive AssignOp where
  | PlusAssign
  | MinusAssign
  | TimesAssign
  | DivAssign
  | ModAssign
deriving DecidableEq, Repr

/-- Modelled from the spec: the keywords of `tokenizer.rs`, as matched on by
`parser.rs`. -/
inductive Keyword where
  | Proc
  | Let
  | Const
  | If
  | Else
  | While
  | For
  | Return
  | Break
  | Continue
  | True
  | False
deriving DecidableEq, Repr

/-- Modelled from the spec: the token payload of `tokenizer.rs`, as matched on
by `parser.rs`.  The source stores `NUM` as a float in `parser.rs` and as an
`i64` in `desugar.rs` (the files are from different revisions); it is modelled
as `Int`, on which the two agree for the integer literals every theorem below
uses. -/
inductive TokenValue where
  | OP (op : Operator)
  | ID (s : String)
  | NUM (n : Int)
  | STR (s : String)
  | KW (k : Keyword)
  | LPAREN
  | RPAREN
  | LBRACKET
  | RBRACKET
  | SEMICOLON
  | COMMA
  | ASSIGN
  | ASSIGN_OP (op : AssignOp)
  | THIN_ARROW
  | DOUBLE_PLUS
  | DOUBLE_MINUS
deriving DecidableEq, Repr

/-- Modelled from the spec: a token is a value plus a `(line, column)`
position; positions are ignored for grammar decisions. -/
structure Token where
  val : TokenValue
  line : Nat
  col : Nat
deriving DecidableEq, Repr

/-- `parser.rs`: the builtin procedures. -/
inductive Builtin where
  | Print
deriving DecidableEq, Repr

mutual
/-- `parser.rs`: the sugared (surface) statement type `SugaredStatement`. -/
inductive SugaredStatement where
  | Expr (e : SugaredExpr)
  | Let (name : String) (e : SugaredExpr)
  | Const (name : String) (e : SugaredExpr)
  | Assign (name : String) (e : SugaredExpr)
  | OperatorAssignment (op : AssignOp) (name : String) (e : SugaredExpr)
  | Block (stmts : List SugaredStatement)
  | If (cond : SugaredExpr) (thenB : SugaredStatement)
      (elseIfs : List (SugaredExpr × SugaredStatement))
      (elseOpt : Option SugaredStatement)
  | While (cond : SugaredExpr) (body : SugaredStatement)
  | For (init : SugaredStatement) (cond : SugaredExpr)
        (step : SugaredStatement) (body : List SugaredStatement)
  | Break
  | Continue
  | Return (e : Option SugaredExpr)

/-- `parser.rs`: the sugared (surface) expression type `SugaredExpr`.
`Num` is `Int` (see `TokenValue.NUM`). -/
inductive SugaredExpr where
  | Num (n : Int)
  | Bool (b : Bool)
  | Str (s : String)
  | Var (name : String)
  | Binary (op : Operator) (l r : SugaredExpr)
  | Unary (op : Operator) (e : SugaredExpr)
  | PrimitiveCall (b : Builtin) (args : List SugaredExpr)
  | Call (callee : SugaredExpr) (args : List SugaredExpr)
  | Lambda (params : List String) (body : SugaredStatement)
end

mutual
/-- `desugar.rs`: the core statement type `Statement`. -/
inductive Statement where
  | Expr (e : Expr)
  | Let (name : String) (e : Expr)
  | Assign (name : String) (e : Expr)
  | If (cond : Expr) (thenB : Statement) (elseOpt : Option Statement)
  | While (cond : Expr) (body : Statement)
  | Block (stmts : List Statement)
  | Return (e : Option Expr)
  | Break
  | Continue

/-- `desugar.rs`: the core expression type `Expr`.  The lambda form is named
`Lambda` in `desugar.rs` and matched as `Proc` in `interpreter.rs` (the files
are from different revisions); its body is the single (block) `Statement` that
`interpreter.rs` and `parser.rs` use. -/
inductive Expr where
  | Num (n : Int)
  | Bool (b : Bool)
  | Str (s : String)
  | Var (name : String)
  | Binary (op : Operator) (l r : Expr)
  | Unary (op : Operator) (e : Expr)
  | PrimitiveCall (b : Builtin) (args : List Expr)
  | Call (callee : Expr) (args : List Expr)
  | Lambda (params : List String) (body : Statement)
end

/-- `desugar.rs`/`parser.rs`: a desugared procedure; its body is the single
(block) statement produced by `parse_program` and consumed by
`interp_program`. -/
structure Procedure where
  name : String
  params : List String
  body : Statement

/-- `parser.rs`: a parsed program — the top-level procedures excluding `main`,
plus the body of the `main` procedure. -/
structure Program where
  procedures : List Procedure
  main : Statement

mutual
/-- `desugar.rs` `desugar_statement`.  The source `match` has no arm for
`SugaredStatement::Const` and `SugaredStatement::OperatorAssignment` (the
match is non-exhaustive over the statement type `parser.rs` defines), so the
embedding returns `none` exactly on those two forms and is the source's
translation everywhere else. -/
def desugar_statement : SugaredStatement → Option Statement
  | .Expr e => do pure (.Expr (← desugar_expression e))
  | .Let n e => do pure (.Let n (← desugar_expression e))
  | .Assign n e => do pure (.Assign n (← desugar_expression e))
  | .If c t eis els => do
      let dels ← match els with
        | some eb => do pure (some (← desugar_statement eb))
        | none => pure none
      let nested ← desugar_else_ifs eis dels
      pure (.If (← desugar_expression c) (← desugar_statement t) nested)
  | .Return eo =>
      match eo with
      | some e => do pure (.Return (some (← desugar_expression e)))
      | none => pure (.Return none)
  | .While c b => do pure (.While (← desugar_expression c) (← desugar_statement b))
  | .For init cond step body => do
      let di ← desugar_statement init
      let dc := desugar_expression cond
      let ds ← desugar_statement step
      let db ← desugar_statements body
      pure (.Block [di, .While (← dc) (.Block (db ++ [ds]))])
  | .Break => pure .Break
  | .Continue => pure .Continue
  | .Block stmts => do pure (.Block (← desugar_statements stmts))
  | .Const _ _ => none
  | .OperatorAssignment _ _ _ => none

/-- `desugar.rs` `desugar_statement`, `If` arm: the `rfold` over the else-if
clauses, written as right recursion over the list (folding from the right,
starting from the desugared else branch, exactly as `rfold` does). -/
def desugar_else_ifs :
    List (SugaredExpr × SugaredStatement) → Option Statement → Option (Option Statement)
  | [], acc => some acc
  | (c, b) :: rest, acc => do
      let accRest ← desugar_else_ifs rest acc
      pure (some (.If (← desugar_expression c) (← desugar_statement b) accRest))

/-- `desugar.rs` `desugar_statements`: elementwise desugaring of a statement
list. -/
def desugar_statements : List SugaredStatement → Option (List Statement)
  | [] => some []
  | s :: rest => do pure ((← desugar_statement s) :: (← desugar_statements rest))

/-- `desugar.rs` `desugar_expression`. -/
def desugar_expression : SugaredExpr → Option Expr
  | .Num n => some (.Num n)
  | .Bool b => some (.Bool b)
  | .Str s => some (.Str s)
  | .Var x => some (.Var x)
  | .Binary op l r => do
      pure (.Binary op (← desugar_expression l) (← desugar_expression r))
  | .Unary op e => do pure (.Unary op (← desugar_expression e))
  | .PrimitiveCall b args => do pure (.PrimitiveCall b (← desugar_exprs args))
  | .Call f args => do pure (.Call (← desugar_expression f) (← desugar_exprs args))
  | .Lambda ps body => do pure (.Lambda ps (← desugar_statement body))

/-- `desugar.rs`: elementwise desugaring of an expression list (the
`map`/`collect` in the `PrimitiveCall` and `Call` arms of
`desugar_expression`). -/
def desugar_exprs : List SugaredExpr → Option (List Expr)
  | [] => some []
  | e :: rest => do pure ((← desugar_expression e) :: (← desugar_exprs rest))
end

/-- `interpreter.rs`: the runtime value type `Value`.  A `Lambda` value holds
its parameter list, its body statement, and its captured environment (an
environment is a chain of scopes, each scope an association list; see
`Environment`). -/
inductive Value where
  | Num (n : Int)
  | Bool (b : Bool)
  | Str (s : String)
  | Lambda (params : List String) (body : Statement)
           (env : List (List (String × Value)))
  | Void

/-- Modelled from the spec: the environment (`environment.rs` is not among
the sources) is a chain of scopes, innermost first; each scope is a mutable
name-to-value map, modelled as an association list. -/
abbrev Scope := List (String × Value)

/-- Modelled from the spec: the scope chain, innermost scope first. -/
abbrev Environment := List Scope

/-- `interpreter.rs`: the explicit control-flow signal `ControlFlow`. -/
inductive ControlFlow where
  | Return
  | Normal
  | Break
  | Continue
deriving DecidableEq, Repr

/-- `error.rs`: the tokenizer error type `TokenizerError`. -/
inductive TokenizerError where
  | UnknownToken (s : String)
  | UnterminatedStringLiteral
  | InvalidEscapeSequence (c : Char)
deriving DecidableEq, Repr

/-- `error.rs`: the parse error type `ParseError`.  The last three variants do
not appear in `error.rs` but are constructed by `parser.rs` (the files are
from different revisions): the two `for`-header clause errors the spec
describes, and the end-of-input unexpected-token error. -/
inductive ParseError where
  | NoMain
  | MultipleSameNamedProcs (name : String)
  | UnexpectedToken (t : Token)
  | Expected (target : TokenValue) (t : Token)
  | KeywordAsVar (kw : String)
  | KeywordAsProc (kw : String)
  | KeywordAsParam (kw : String)
  | ExpectedStatement
  | ExpectedBlock
  | Custom (s : String)
  | ExpectedAssignmentOrInitialization
  | ExpectedAssignment
  | UnexpectedEOF
deriving DecidableEq, Repr

/-- `error.rs`: the runtime error type `RuntimeError`.  `ArgMismatch` carries
the callee name, the number of arguments given, and the number of parameters
expected, in that order (as constructed in `interpreter.rs`). -/
inductive RuntimeError where
  | UnknownVariable (name : String)
  | BadArg (v : Value)
  | BadArgs (vs : List Value)
  | ArgMismatch (name : String) (args params : Nat)
  | ExpectedBool (v : Value)
  | BinaryAsUnary (op : Operator)
  | UnaryAsBinary (op : Operator)
  | BreakNotInLoop
  | ContinueNotInLoop
  | InvalidAssignmentTarget

/-- `error.rs`: the top-level error union `LingerError`. -/
inductive LingerError where
  | ParseError (e : ParseError)
  | TokenizerError (e : TokenizerError)
  | RuntimeError (e : RuntimeError)

/-- The outcome of running a piece of interpreter code: `ok` and `err` are the
two sides of the source's `Result<_, LingerError>`; `abort` is a source
`todo!()` (a panic, aborting the process); `timeout` is fuel exhaustion, an
artifact of the embedding. -/
inductive Res (α : Type) where
  | ok (a : α)
  | err (e : LingerError)
  | abort
  | timeout

/-- Result monad structure mirroring Rust's `?` propagation: `err`, `abort`
and `timeout` short-circuit. -/
def Res.bind : Res α → (α → Res β) → Res β
  | .ok a, f => f a
  | .err e, _ => .err e
  | .abort, _ => .abort
  | .timeout, _ => .timeout

instance : Monad Res where
  pure := Res.ok
  bind := Res.bind

/-- Modelled from the spec: `Environment::new()` — a fresh root environment,
a chain consisting of one empty scope. -/
def Environment.new : Environment := [[]]

/-- Modelled from the spec: insert-or-overwrite of a binding within one
scope. -/
def scope_update : Scope → String → Value → Scope
  | [], name, v => [(name, v)]
  | (n, w) :: rest, name, v =>
      if n = name then (name, v) :: rest else (n, w) :: scope_update rest name v

/-- Modelled from the spec: `Environment::update` — the reference evaluator's
single write operation, used for `let`, for `=`-assignment and for the
initial procedure bindings: an unconditional insert-or-overwrite in the
current (innermost) scope (spec §9: both `let` and `=` are "an unconditional
insert/overwrite"). -/
def Environment.update : Environment → String → Value → Environment
  | [], name, v => [[(name, v)]]
  | s :: rest, name, v => scope_update s name v :: rest

/-- Modelled from the spec: lookup within one scope, first match wins. -/
def scope_lookup : Scope → String → Option Value
  | [], _ => none
  | (n, v) :: rest, name => if n = name then some v else scope_lookup rest name

/-- Modelled from the spec: `Environment::get` — search the scope chain
innermost-first; first match wins; absence yields the `UnknownVariable`
runtime error. -/
def Environment.get : Environment → String → Res Value
  | [], name => .err (.RuntimeError (.UnknownVariable name))
  | s :: rest, name =>
      match scope_lookup s name with
      | some v => .ok v
      | none => Environment.get rest name

/-- Modelled from the spec: `Environment::extend` — `childScope(bindings)`, a
new innermost scope pre-populated with `bindings`, whose parent is the given
environment. -/
def Environment.extend (env : Environment) (bindings : List (String × Value)) :
    Environment := bindings :: env

/-- Addition of two `i64` values with 64-bit two's-complement wraparound (the
release-mode semantics of Rust's `+` on `i64`, used by the `Plus` arm of
`interp_expression`). -/
def i64_add (a b : Int) : Int := (a + b + 2 ^ 63) % 2 ^ 64 - 2 ^ 63

/-- `interpreter.rs`: the string the `Call` arm uses for the `ArgMismatch`
error when the callee is not a bare identifier. -/
def lambda_name : String := "<lambda>"

mutual
/-- `interpreter.rs` `interp_statement`.  Statement evaluation yields a value,
a control-flow signal, and the updated environment (the source mutates the
environment through `&mut`).  The fuel parameter is spent only on `while`-loop
iterations and on calls (the two sources of non-structural recursion); all
other recursion is structural. -/
def interp_statement (fuel : Nat) (env : Environment) (statement : Statement)
    (in_loop : Bool) : Res (Value × ControlFlow × Environment) :=
  match statement with
  | .Expr e => do
      let (v, env') ← interp_expression fuel env e
      pure (v, .Normal, env')
  | .Let id e => do
      let (v, env') ← interp_expression fuel env e
      pure (.Void, .Normal, env'.update id v)
  | .Assign id e => do
      let (v, env') ← interp_expression fuel env e
      pure (.Void, .Normal, env'.update id v)
  | .If c t els => do
      let (cv, env₁) ← interp_expression fuel env c
      match cv with
      | .Bool b =>
          if b then interp_statement fuel env₁ t in_loop
          else
            match els with
            | some es => interp_statement fuel env₁ es in_loop
            | none => pure (.Void, .Normal, env₁)
      | v => .err (.RuntimeError (.BadArg v))
  | .While c body => do
      let (cv, env₁) ← interp_expression fuel env c
      match cv with
      | .Bool b =>
          if b then do
            let (v, cf, env₂) ← interp_statement fuel env₁ body true
            match cf with
            | .Return => pure (v, .Return, env₂)
            | .Break => pure (.Void, .Normal, env₂)
            | .Normal =>
                match fuel with
                | 0 => .timeout
                | f + 1 => interp_statement f env₂ (.While c body) in_loop
            | .Continue =>
                match fuel with
                | 0 => .timeout
                | f + 1 => interp_statement f env₂ (.While c body) in_loop
          else pure (.Void, .Normal, env₁)
      | v => .err (.RuntimeError (.BadArg v))
  | .Return (some e) => do
      let (v, env') ← interp_expression fuel env e
      pure (v, .Return, env')
  | .Return none => pure (.Void, .Return, env)
  | .Break => pure (.Void, .Break, env)
  | .Continue => pure (.Void, .Continue, env)
  | .Block stmts => interp_block fuel env stmts in_loop .Void
termination_by (fuel, sizeOf statement)

/-- `interpreter.rs` `interp_statement`, `Block` arm: the statement loop with
its running `block_value` (updated on `Normal`, returned when the list is
exhausted); `Return` short-circuits; `Break`/`Continue` are relayed only when
`in_loop`, else they are the respective not-in-loop errors. -/
def interp_block (fuel : Nat) (env : Environment) (stmts : List Statement)
    (in_loop : Bool) (block_value : Value) : Res (Value × ControlFlow × Environment) :=
  match stmts with
  | [] => pure (block_value, .Normal, env)
  | s :: rest => do
      let (v, cf, env') ← interp_statement fuel env s in_loop
      match cf with
      | .Normal => interp_block fuel env' rest in_loop v
      | .Return => pure (v, .Return, env')
      | .Break =>
          if in_loop then pure (v, .Break, env')
          else .err (.RuntimeError .BreakNotInLoop)
      | .Continue =>
          if in_loop then pure (v, .Continue, env')
          else .err (.RuntimeError .ContinueNotInLoop)
termination_by (fuel, sizeOf stmts)

/-- `interpreter.rs` `interp_expression`.  The `Binary` arm implements only
`Plus`; every other binary operator, and every unary expression, is a source
`todo!()`, i.e. `abort`.  A call evaluates the callee, requires a `Lambda`
value, checks arity before evaluating arguments, evaluates arguments
left-to-right in the caller's environment, and runs the body with
`in_loop = false` in a child scope of the callee's captured environment,
discarding the body's control-flow signal and environment. -/
def interp_expression (fuel : Nat) (env : Environment) (expr : Expr) :
    Res (Value × Environment) :=
  match expr with
  | .Num n => pure (.Num n, env)
  | .Bool b => pure (.Bool b, env)
  | .Str s => pure (.Str s, env)
  | .Lambda ps body => pure (.Lambda ps body env, env)
  | .Var id => do
      let v ← env.get id
      pure (v, env)
  | .Binary op l r =>
      match op with
      | .Plus => do
          let (lv, env₁) ← interp_expression fuel env l
          let (rv, env₂) ← interp_expression fuel env₁ r
          match lv, rv with
          | .Num a, .Num b => pure (.Num (i64_add a b), env₂)
          | .Str a, .Str b => pure (.Str (a ++ b), env₂)
          | .Num _, v => .err (.RuntimeError (.BadArg v))
          | v, _ => .err (.RuntimeError (.BadArg v))
      | _ => .abort
  | .Unary _ _ => .abort
  | .Call f args => do
      let f_name := match f with | .Var n => n | _ => lambda_name
      let (fv, env₁) ← interp_expression fuel env f
      match fv with
      | .Lambda f_params f_body f_env =>
          if args.length ≠ f_params.length then
            .err (.RuntimeError (.ArgMismatch f_name args.length f_params.length))
          else do
            let (arg_values, env₂) ← interp_args fuel env₁ args
            let bindings := f_params.zip arg_values
            match fuel with
            | 0 => .timeout
            | fu + 1 => do
                let (v, _, _) ← interp_statement fu (Environment.extend f_env bindings) f_body false
                pure (v, env₂)
      | v => .err (.RuntimeError (.BadArg v))
  | .PrimitiveCall b args =>
      match b with
      | .Print => do
          let (_, env') ← interp_args fuel env args
          pure (.Void, env')
termination_by (fuel, sizeOf expr)

/-- `interpreter.rs`: left-to-right evaluation of an expression list in the
caller's environment, stopping at the first error (the `map`/`collect` in the
`Call` arm and the argument loop in the `Print` arm). -/
def interp_args (fuel : Nat) (env : Environment) (exprs : List Expr) :
    Res (List Value × Environment) :=
  match exprs with
  | [] => pure ([], env)
  | e :: rest => do
      let (v, env₁) ← interp_expression fuel env e
      let (vs, env₂) ← interp_args fuel env₁ rest
      pure (v :: vs, env₂)
termination_by (fuel, sizeOf exprs)
end

/-- `interpreter.rs` `interp_program`: bind every procedure of the program
(`main` excluded by `parse_program`) in a fresh root environment as a `Lambda`
value whose captured environment is `Environment::new()`. -/
def initial_env (procs : List Procedure) : Environment :=
  procs.foldl
    (fun env p => env.update p.name (.Lambda p.params p.body Environment.new))
    Environment.new

/-- `interpreter.rs` `interp_program`: build the initial environment, then
evaluate the `main` body with `in_loop = false`, discarding the control-flow
signal. -/
def interp_program (fuel : Nat) (p : Program) : Res Value := do
  let (v, _, _) ← interp_statement fuel (initial_env p.procedures) p.main false
  pure v

/-- `parser.rs`: a sugared top-level procedure `SugaredProcedure`. -/
structure SugaredProcedure where
  name : String
  params : List String
  body : SugaredStatement

/-- Modelled from the spec: `Keyword::to_string()` (the `Display` instance of
`tokenizer.rs`), used only to fill the string payload of the keyword-misuse
parse errors. -/
def kw_string : Keyword → String
  | .Proc => "proc"
  | .Let => "let"
  | .Const => "const"
  | .If => "if"
  | .Else => "else"
  | .While => "while"
  | .For => "for"
  | .Return => "return"
  | .Break => "break"
  | .Continue => "continue"
  | .True => "true"
  | .False => "false"

/-- The outcome of one recursive-descent parse function: a parsed item plus
the remaining tokens (the source's `Ok((item, rest))`), a parse error, or
fuel exhaustion (an artifact of the embedding). -/
inductive PRes (α : Type) where
  | ok (a : α) (rest : List Token)
  | err (e : ParseError)
  | timeout

/-- Error propagation for parse results, mirroring Rust's `?`. -/
def PRes.bind : PRes α → (α → List Token → PRes β) → PRes β
  | .ok a rest, f => f a rest
  | .err e, _ => .err e
  | .timeout, _ => .timeout

/-- Lifts a token-consuming helper (which cannot run out of fuel) into the
parse-result plumbing, mirroring Rust's `?`. -/
def PRes.bindE : Except ParseError (List Token) → (List Token → PRes β) → PRes β
  | .error e, _ => .err e
  | .ok toks, f => f toks

/-- `parser.rs` `unexpected_token`: the offending first token, or the
end-of-input error when no tokens remain. -/
def unexpected_token : List Token → ParseError
  | t :: _ => .UnexpectedToken t
  | [] => .UnexpectedEOF

/-- `parser.rs` `check_builtin`: a callee expression that is the bare
identifier `print` names the `Print` builtin. -/
def check_builtin : SugaredExpr → Option Builtin
  | .Var name => if name = "print" then some .Print else none
  | _ => none

/-- `parser.rs` `consume_token`: consume one token whose value equals
`target`, else an `Expected` error (or end-of-input). -/
def consume_token (target : TokenValue) : List Token → Except ParseError (List Token)
  | t :: rest => if t.val = target then .ok rest else .error (.Expected target t)
  | [] => .error .UnexpectedEOF

/-- `parser.rs` `conditionally_consume_semicolon`. -/
def conditionally_consume_semicolon (tokens : List Token) (should_consume : Bool) :
    Except ParseError (List Token) :=
  if should_consume then consume_token .SEMICOLON tokens else .ok tokens

/-- `parser.rs` `match_operator`: consume a leading operator token drawn from
`operators`. -/
def match_operator (operators : List Operator) (tokens : List Token) :
    Option (Operator × List Token) :=
  match tokens with
  | ⟨.OP b, _, _⟩ :: rest => if b ∈ operators then some (b, rest) else none
  | _ => none

/-- `parser.rs` `binary_expression`. -/
def binary_expression (op : Operator) (first_arg second_arg : SugaredExpr) :
    SugaredExpr :=
  .Binary op first_arg second_arg

/-- `parser.rs` `ensure_block`: require a present `Block` statement. -/
def ensure_block : Option SugaredStatement → Except ParseError SugaredStatement
  | some (SugaredStatement.Block stmts) => .ok (SugaredStatement.Block stmts)
  | some _ => .error .ExpectedBlock
  | none => .error .ExpectedBlock

/-- `parser.rs` `is_assignment`. -/
def is_assignment : SugaredStatement → Bool
  | .Assign _ _ => true
  | .OperatorAssignment _ _ _ => true
  | .Expr (.Unary op _) =>
      match op with
      | .PreIncrement | .PostIncrement | .PreDecrement | .PostDecrement => true
      | _ => false
  | _ => false

/-- `parser.rs` `is_assignment_or_initialization`. -/
def is_assignment_or_initialization (statement : SugaredStatement) : Bool :=
  match statement with
  | .Let _ _ => true
  | s => is_assignment s

/-- The next-tighter precedence level a layered binary-expression parse
function defers to (`parser.rs` passes the next parse function itself as the
`parse_expr` argument of `parse_binary_expr`; function values cannot be
passed between members of a recursive definition here, so the six call sites
are encoded by this tag, dispatched by `parse_next_level`). -/
inductive PrecLevel where
  | AndL
  | EqL
  | RelL
  | AddL
  | MulL
  | UnaryL
deriving DecidableEq, Repr

mutual
/-- `parser.rs` `parse_procs`: parse procedures until one is not there,
rejecting duplicated names. -/
def parse_procs (fuel : Nat) (tokens : List Token) : PRes (List SugaredProcedure) :=
  match fuel with
  | 0 => .timeout
  | f + 1 =>
      (parse_proc f tokens).bind fun proc_opt tokens =>
        match proc_opt with
        | some proc =>
            (parse_procs f tokens).bind fun rest_procs tokens =>
              if rest_procs.any (fun p => p.name == proc.name) then
                .err (.MultipleSameNamedProcs proc.name)
              else .ok (proc :: rest_procs) tokens
        | none => .ok [] tokens

/-- `parser.rs` `parse_proc`: `proc name(params) block`, or `none` when the
tokens do not start a procedure. -/
def parse_proc (fuel : Nat) (tokens : List Token) : PRes (Option SugaredProcedure) :=
  match fuel with
  | 0 => .timeout
  | f + 1 =>
      match tokens with
      | ⟨.KW .Proc, _, _⟩ :: ⟨.KW kw, _, _⟩ :: ⟨.LPAREN, _, _⟩ :: _ =>
          .err (.KeywordAsProc (kw_string kw))
      | ⟨.KW .Proc, _, _⟩ :: ⟨.ID name, _, _⟩ :: ⟨.LPAREN, _, _⟩ :: rest =>
          (parse_params f rest).bind fun params tokens =>
          (parse_statement f tokens true).bind fun body_opt tokens =>
          match ensure_block body_opt with
          | .error e => .err e
          | .ok body_block => .ok (some ⟨name, params, body_block⟩) tokens
      | _ => .ok none tokens

/-- `parser.rs` `parse_params`. -/
def parse_params (fuel : Nat) (tokens : List Token) : PRes (List String) :=
  match fuel with
  | 0 => .timeout
  | f + 1 =>
      match tokens with
      | ⟨.RPAREN, _, _⟩ :: rest => .ok [] rest
      | ⟨.KW kw, _, _⟩ :: _ => .err (.KeywordAsParam (kw_string kw))
      | ⟨.ID param_name, _, _⟩ :: rest_toks =>
          (parse_rest_params f rest_toks).bind fun rest_params rest_toks =>
            .ok (param_name :: rest_params) rest_toks
      | toks => .err (unexpected_token toks)

/-- `parser.rs` `parse_rest_params`. -/
def parse_rest_params (fuel : Nat) (tokens : List Token) : PRes (List String) :=
  match fuel with
  | 0 => .timeout
  | f + 1 =>
      match tokens with
      | ⟨.RPAREN, _, _⟩ :: toks => .ok [] toks
      | ⟨.COMMA, l, c⟩ :: ⟨.RPAREN, l2, c2⟩ :: rest =>
          .err (unexpected_token (⟨.COMMA, l, c⟩ :: ⟨.RPAREN, l2, c2⟩ :: rest))
      | ⟨.COMMA, _, _⟩ :: toks => parse_params f toks
      | toks => .err (unexpected_token toks)

/-- `parser.rs` `parse_statements`: statements until `parse_statement` yields
`none` (a closing bracket). -/
def parse_statements (fuel : Nat) (tokens : List Token) : PRes (List SugaredStatement) :=
  match fuel with
  | 0 => .timeout
  | f + 1 =>
      (parse_statement f tokens true).bind fun statement_opt tokens =>
        match statement_opt with
        | none => .ok [] tokens
        | some statement =>
            (parse_statements f tokens).bind fun rest_statements tokens =>
              .ok (statement :: rest_statements) tokens

/-- `parser.rs` `parse_statement`.  Yields `none` on a closing bracket; the
match arms are in the source's order. -/
def parse_statement (fuel : Nat) (tokens : List Token) (parse_semicolon : Bool) :
    PRes (Option SugaredStatement) :=
  match fuel with
  | 0 => .timeout
  | f + 1 =>
      match tokens with
      | ⟨.RBRACKET, _, _⟩ :: toks => .ok none toks
      | ⟨.KW .Let, _, _⟩ :: ⟨.KW kw, _, _⟩ :: _ => .err (.KeywordAsVar (kw_string kw))
      | ⟨.KW .Const, _, _⟩ :: ⟨.KW kw, _, _⟩ :: _ => .err (.KeywordAsVar (kw_string kw))
      | ⟨.KW .Let, _, _⟩ :: ⟨.ID var_name, _, _⟩ :: ⟨.ASSIGN, _, _⟩ :: toks =>
          (parse_expr f toks).bind fun var_expr toks =>
          PRes.bindE (conditionally_consume_semicolon toks parse_semicolon) fun toks =>
            .ok (some (.Let var_name var_expr)) toks
      | ⟨.KW .Const, _, _⟩ :: ⟨.ID var_name, _, _⟩ :: ⟨.ASSIGN, _, _⟩ :: toks =>
          (parse_expr f toks).bind fun var_expr toks =>
          PRes.bindE (conditionally_consume_semicolon toks parse_semicolon) fun toks =>
            .ok (some (.Const var_name var_expr)) toks
      | ⟨.KW kw, _, _⟩ :: ⟨.ASSIGN, _, _⟩ :: _ => .err (.KeywordAsVar (kw_string kw))
      | ⟨.ID var_name, _, _⟩ :: ⟨.ASSIGN, _, _⟩ :: toks =>
          (parse_expr f toks).bind fun var_expr toks =>
          PRes.bindE (conditionally_consume_semicolon toks parse_semicolon) fun toks =>
            .ok (some (.Assign var_name var_expr)) toks
      | ⟨.ID var_name, _, _⟩ :: ⟨.ASSIGN_OP assign_op, _, _⟩ :: toks =>
          (parse_expr f toks).bind fun var_expr toks =>
          PRes.bindE (conditionally_consume_semicolon toks parse_semicolon) fun toks =>
            .ok (some (.OperatorAssignment assign_op var_name var_expr)) toks
      | ⟨.KW .If, _, _⟩ :: ⟨.LPAREN, _, _⟩ :: toks =>
          (parse_expr f toks).bind fun cond_expr toks =>
          PRes.bindE (consume_token .RPAREN toks) fun toks =>
          (parse_statement f toks true).bind fun then_opt toks =>
          match ensure_block then_opt with
          | .error e => .err e
          | .ok then_block =>
              (parse_else_ifs f toks).bind fun else_ifs toks =>
              match toks with
              | ⟨.KW .Else, _, _⟩ :: toks2 =>
                  (parse_statement f toks2 true).bind fun else_opt toks3 =>
                  match ensure_block else_opt with
                  | .error e => .err e
                  | .ok else_block =>
                      .ok (some (.If cond_expr then_block else_ifs (some else_block))) toks3
              | _ => .ok (some (.If cond_expr then_block else_ifs none)) toks
      | ⟨.KW .While, _, _⟩ :: ⟨.LPAREN, _, _⟩ :: toks =>
          (parse_expr f toks).bind fun while_cond_expr toks =>
          PRes.bindE (consume_token .RPAREN toks) fun toks =>
          (parse_statement f toks true).bind fun while_opt toks =>
          match ensure_block while_opt with
          | .error e => .err e
          | .ok while_block => .ok (some (.While while_cond_expr while_block)) toks
      | ⟨.KW .For, _, _⟩ :: ⟨.LPAREN, _, _⟩ :: toks =>
          (parse_statement f toks true).bind fun var_stmt_opt toks =>
          match var_stmt_opt with
          | none => .err .ExpectedStatement
          | some var_statement =>
              if is_assignment_or_initialization var_statement then
                (parse_expr f toks).bind fun stop_cond_expr toks =>
                PRes.bindE (consume_token .SEMICOLON toks) fun toks =>
                (parse_statement f toks false).bind fun reassign_opt toks =>
                match reassign_opt with
                | none => .err .ExpectedStatement
                | some reassign_statement =>
                    if is_assignment reassign_statement then
                      PRes.bindE (consume_token .RPAREN toks) fun toks =>
                      (parse_statement f toks true).bind fun for_block_opt toks =>
                      match for_block_opt with
                      | some (SugaredStatement.Block statements) =>
                          .ok (some (.For var_statement stop_cond_expr
                                      reassign_statement statements)) toks
                      | some _ => .err .ExpectedBlock
                      | none => .err .ExpectedBlock
                    else .err .ExpectedAssignment
              else .err .ExpectedAssignmentOrInitialization
      | ⟨.KW .Return, _, _⟩ :: ⟨.SEMICOLON, _, _⟩ :: toks => .ok (some (.Return none)) toks
      | ⟨.KW .Return, _, _⟩ :: toks =>
          (parse_expr f toks).bind fun return_expr toks =>
          PRes.bindE (consume_token .SEMICOLON toks) fun toks =>
            .ok (some (.Return (some return_expr))) toks
      | ⟨.KW .Break, _, _⟩ :: toks =>
          PRes.bindE (consume_token .SEMICOLON toks) fun toks => .ok (some .Break) toks
      | ⟨.KW .Continue, _, _⟩ :: toks =>
          PRes.bindE (consume_token .SEMICOLON toks) fun toks => .ok (some .Continue) toks
      | ⟨.LBRACKET, _, _⟩ :: toks =>
          (parse_statements f toks).bind fun statements toks =>
            .ok (some (.Block statements)) toks
      | toks =>
          (parse_expr f toks).bind fun expr toks =>
          PRes.bindE (conditionally_consume_semicolon toks parse_semicolon) fun toks =>
            .ok (some (.Expr expr)) toks

/-- `parser.rs` `parse_statement`, `If` arm: the loop collecting
`else if (cond) block` clauses in order. -/
def parse_else_ifs (fuel : Nat) (tokens : List Token) :
    PRes (List (SugaredExpr × SugaredStatement)) :=
  match fuel with
  | 0 => .timeout
  | f + 1 =>
      match tokens with
      | ⟨.KW .Else, _, _⟩ :: ⟨.KW .If, _, _⟩ :: ⟨.LPAREN, _, _⟩ :: rest =>
          (parse_expr f rest).bind fun else_if_cond rest =>
          PRes.bindE (consume_token .RPAREN rest) fun rest =>
          (parse_statement f rest true).bind fun blk_opt rest =>
          match ensure_block blk_opt with
          | .error e => .err e
          | .ok else_if_block =>
              (parse_else_ifs f rest).bind fun more rest =>
                .ok ((else_if_cond, else_if_block) :: more) rest
      | _ => .ok [] tokens

/-- `parser.rs` `parse_expr`: expressions start at the loosest precedence
level. -/
def parse_expr (fuel : Nat) (tokens : List Token) : PRes SugaredExpr :=
  match fuel with
  | 0 => .timeout
  | f + 1 => parse_logical_or_expr f tokens

/-- `parser.rs` `parse_logical_or_expr`. -/
def parse_logical_or_expr (fuel : Nat) (tokens : List Token) : PRes SugaredExpr :=
  match fuel with
  | 0 => .timeout
  | f + 1 => parse_binary_expr f .AndL [.LogicOr] tokens

/-- `parser.rs` `parse_logical_and_expr`. -/
def parse_logical_and_expr (fuel : Nat) (tokens : List Token) : PRes SugaredExpr :=
  match fuel with
  | 0 => .timeout
  | f + 1 => parse_binary_expr f .EqL [.LogicAnd] tokens

/-- `parser.rs` `parse_equality_expr`. -/
def parse_equality_expr (fuel : Nat) (tokens : List Token) : PRes SugaredExpr :=
  match fuel with
  | 0 => .timeout
  | f + 1 => parse_binary_expr f .RelL [.Eq, .Ne] tokens

/-- `parser.rs` `parse_relational_expr`. -/
def parse_relational_expr (fuel : Nat) (tokens : List Token) : PRes SugaredExpr :=
  match fuel with
  | 0 => .timeout
  | f + 1 => parse_binary_expr f .AddL [.LT, .GT, .LTE, .GTE] tokens

/-- `parser.rs` `parse_additive_expr`. -/
def parse_additive_expr (fuel : Nat) (tokens : List Token) : PRes SugaredExpr :=
  match fuel with
  | 0 => .timeout
  | f + 1 => parse_binary_expr f .MulL [.Plus, .Minus] tokens

/-- `parser.rs` `parse_multiplicative_expr`. -/
def parse_multiplicative_expr (fuel : Nat) (tokens : List Token) : PRes SugaredExpr :=
  match fuel with
  | 0 => .timeout
  | f + 1 => parse_binary_expr f .UnaryL [.Times, .Mod, .Div] tokens

/-- `parser.rs` `parse_binary_expr`: parse one operand at the next-tighter
level, then loop left-associatively over same-level operators. -/
def parse_binary_expr (fuel : Nat) (next : PrecLevel) (operators : List Operator)
    (tokens : List Token) : PRes SugaredExpr :=
  match fuel with
  | 0 => .timeout
  | f + 1 =>
      (parse_next_level f next tokens).bind fun expr tokens =>
        parse_binary_loop f next operators expr tokens

/-- Dispatch of the `PrecLevel` tag to the corresponding parse function (see
`PrecLevel`). -/
def parse_next_level (fuel : Nat) (next : PrecLevel) (tokens : List Token) :
    PRes SugaredExpr :=
  match fuel with
  | 0 => .timeout
  | f + 1 =>
      match next with
      | .AndL => parse_logical_and_expr f tokens
      | .EqL => parse_equality_expr f tokens
      | .RelL => parse_relational_expr f tokens
      | .AddL => parse_additive_expr f tokens
      | .MulL => parse_multiplicative_expr f tokens
      | .UnaryL => parse_unary_expr f tokens

/-- `parser.rs` `parse_binary_expr`, the `loop`: fold further same-level
operands onto `expr` from the left. -/
def parse_binary_loop (fuel : Nat) (next : PrecLevel) (operators : List Operator)
    (expr : SugaredExpr) (tokens : List Token) : PRes SugaredExpr :=
  match fuel with
  | 0 => .timeout
  | f + 1 =>
      match match_operator operators tokens with
      | some (op, rest) =>
          (parse_next_level f next rest).bind fun right rest =>
            parse_binary_loop f next operators (binary_expression op expr right) rest
      | none => .ok expr tokens

/-- `parser.rs` `parse_unary_expr`: prefix `-`/`!`, pre/post `++`/`--`, else
defer to `parse_call_expr`. -/
def parse_unary_expr (fuel : Nat) (tokens : List Token) : PRes SugaredExpr :=
  match fuel with
  | 0 => .timeout
  | f + 1 =>
      match match_operator [.Minus, .LogicNot] tokens with
      | some (operator, toks) =>
          (parse_unary_expr f toks).bind fun right toks =>
            .ok (.Unary operator right) toks
      | none =>
          match tokens with
          | ⟨.DOUBLE_PLUS, _, _⟩ :: toks =>
              (parse_call_expr f toks).bind fun terminal_expr toks =>
                .ok (.Unary .PreIncrement terminal_expr) toks
          | ⟨.DOUBLE_MINUS, _, _⟩ :: toks =>
              (parse_call_expr f toks).bind fun terminal_expr toks =>
                .ok (.Unary .PreDecrement terminal_expr) toks
          | toks =>
              (parse_call_expr f toks).bind fun terminal_expr toks =>
                match toks with
                | ⟨.DOUBLE_PLUS, _, _⟩ :: toks =>
                    .ok (.Unary .PostIncrement terminal_expr) toks
                | ⟨.DOUBLE_MINUS, _, _⟩ :: toks =>
                    .ok (.Unary .PostDecrement terminal_expr) toks
                | toks => .ok terminal_expr toks

/-- `parser.rs` `parse_call_expr`: a terminal expression followed by
zero-or-more argument lists. -/
def parse_call_expr (fuel : Nat) (tokens : List Token) : PRes SugaredExpr :=
  match fuel with
  | 0 => .timeout
  | f + 1 =>
      (parse_terminal_expr f tokens).bind fun expr tokens =>
        parse_call_loop f expr tokens

/-- `parser.rs` `parse_call_expr`, the `loop`: while a `(` follows, wrap the
expression in a call (a `PrimitiveCall` when the callee is a builtin name). -/
def parse_call_loop (fuel : Nat) (expr : SugaredExpr) (tokens : List Token) :
    PRes SugaredExpr :=
  match fuel with
  | 0 => .timeout
  | f + 1 =>
      match tokens with
      | ⟨.LPAREN, _, _⟩ :: rest =>
          (parse_args f rest).bind fun args rest =>
            match check_builtin expr with
            | some builtin => parse_call_loop f (.PrimitiveCall builtin args) rest
            | none => parse_call_loop f (.Call expr args) rest
      | _ => .ok expr tokens

/-- `parser.rs` `parse_terminal_expr`: literals, identifiers, and the
parenthesis disambiguation — try a parameter list then a lambda arrow; on a
generic unexpected-token failure backtrack to a parenthesized expression;
propagate any other error. -/
def parse_terminal_expr (fuel : Nat) (tokens : List Token) : PRes SugaredExpr :=
  match fuel with
  | 0 => .timeout
  | f + 1 =>
      match tokens with
      | ⟨.STR s, _, _⟩ :: toks => .ok (.Str s) toks
      | ⟨.KW .True, _, _⟩ :: toks => .ok (.Bool true) toks
      | ⟨.KW .False, _, _⟩ :: toks => .ok (.Bool false) toks
      | ⟨.KW kw, _, _⟩ :: _ => .err (.KeywordAsVar (kw_string kw))
      | ⟨.ID id, _, _⟩ :: toks => .ok (.Var id) toks
      | ⟨.LPAREN, _, _⟩ :: toks =>
          match parse_params f toks with
          | .ok params toks =>
              PRes.bindE (consume_token .THIN_ARROW toks) fun toks =>
              (parse_statement f toks false).bind fun stmt_opt toks =>
              match stmt_opt with
              | some lambda_body => .ok (.Lambda params lambda_body) toks
              | none => .err .ExpectedStatement
          | .err (.UnexpectedToken _) =>
              (parse_expr f toks).bind fun expr toks =>
              PRes.bindE (consume_token .RPAREN toks) fun toks =>
                .ok expr toks
          | .err e => .err e
          | .timeout => .timeout
      | ⟨.NUM n, _, _⟩ :: toks => .ok (.Num n) toks
      | toks => .err (unexpected_token toks)

/-- `parser.rs` `parse_args`. -/
def parse_args (fuel : Nat) (tokens : List Token) : PRes (List SugaredExpr) :=
  match fuel with
  | 0 => .timeout
  | f + 1 =>
      match tokens with
      | ⟨.RPAREN, _, _⟩ :: toks => .ok [] toks
      | toks =>
          (parse_expr f toks).bind fun expr toks =>
          (parse_rest_args f toks).bind fun rest_args toks =>
            .ok (expr :: rest_args) toks

/-- `parser.rs` `parse_rest_args`. -/
def parse_rest_args (fuel : Nat) (tokens : List Token) : PRes (List SugaredExpr) :=
  match fuel with
  | 0 => .timeout
  | f + 1 =>
      match tokens with
      | ⟨.RPAREN, _, _⟩ :: toks => .ok [] toks
      | ⟨.COMMA, l, c⟩ :: ⟨.RPAREN, l2, c2⟩ :: rest =>
          .err (unexpected_token (⟨.COMMA, l, c⟩ :: ⟨.RPAREN, l2, c2⟩ :: rest))
      | ⟨.COMMA, _, _⟩ :: toks => parse_args f toks
      | toks => .err (unexpected_token toks)
end

/-- `parser.rs` `parse_program`: desugaring of each parsed procedure's body
(the `desugared_procs` map); `none` is a missing `desugar_statement` arm,
i.e. an abort. -/
def desugar_procs : List SugaredProcedure → Option (List Procedure)
  | [] => some []
  | p :: rest => do
      let body ← desugar_statement p.body
      let rest' ← desugar_procs rest
      pure ({ name := p.name, params := p.params, body := body } :: rest')

/-- `parser.rs` `parse_program`: parse all procedures, require the tokens to
be exhausted, desugar every body, split off the procedures named `main`, and
require one to exist; the program keeps the non-`main` procedures and the
first `main`'s body. -/
def parse_program (fuel : Nat) (tokens : List Token) : Res Program :=
  match fuel with
  | 0 => .timeout
  | f + 1 =>
      match parse_procs f tokens with
      | .timeout => .timeout
      | .err e => .err (.ParseError e)
      | .ok procedures rest =>
          if rest.isEmpty then
            match desugar_procs procedures with
            | none => .abort
            | some desugared_procs =>
                match desugared_procs.partition (fun proc => proc.name == "main") with
                | (main_procs, procs) =>
                    match main_procs with
                    | [] => .err (.ParseError .NoMain)
                    | main_proc :: _ => .ok { procedures := procs, main := main_proc.body }
          else .err (.ParseError (unexpected_token rest))

/-- A token with a dummy position (positions never influence grammar
decisions; see `Token`). -/
def tk (v : TokenValue) : Token := ⟨v, 0, 0⟩

/-! Basic reduction lemmas for the result plumbing, used throughout the
proofs below. -/

@[simp] theorem Res.bind_ok (a : α) (f : α → Res β) : Res.bind (.ok a) f = f a := rfl

@[simp] theorem Res.bind_err (e : LingerError) (f : α → Res β) :
    Res.bind (.err e) f = .err e := rfl

@[simp] theorem Res.bind_abort (f : α → Res β) :
    Res.bind (.abort : Res α) f = .abort := rfl

@[simp] theorem Res.bind_timeout (f : α → Res β) :
    Res.bind (.timeout : Res α) f = .timeout := rfl

@[simp] theorem Res.bind_def (x : Res α) (f : α → Res β) : x >>= f = Res.bind x f := rfl

@[simp] theorem Res.pure_def (a : α) : (pure a : Res α) = .ok a := rfl

@[simp] theorem pres_bind_ok (a : α) (rest : List Token) (f : α → List Token → PRes β) :
    PRes.bind (.ok a rest) f = f a rest := rfl

@[simp] theorem pres_bind_err (e : ParseError) (f : α → List Token → PRes β) :
    PRes.bind (.err e) f = .err e := rfl

@[simp] theorem PRes.bindE_ok (toks : List Token) (f : List Token → PRes β) :
    PRes.bindE (.ok toks) f = f toks := rfl

@[simp] theorem PRes.bindE_err (e : ParseError) (f : List Token → PRes β) :
    PRes.bindE (.error e) f = .err e := rfl

/-- C1: contrary to the spec's error-as-value contract, evaluating a binary
expression whose operator is anything other than `Plus`, or any unary
expression, is a `todo!()` in `interp_expression` — it aborts the process
before even evaluating its operands, instead of returning a value or a
`RuntimeError`. -/
theorem C1_non_plus_binary_and_unary_abort :
    (∀ (fuel : Nat) (env : Environment) (op : Operator) (l r : Expr),
      op ≠ .Plus → interp_expression fuel env (.Binary op l r) = .abort) ∧
    (∀ (fuel : Nat) (env : Environment) (op : Operator) (e : Expr),
      interp_expression fuel env (.Unary op e) = .abort) := by
  constructor
  · intro fuel env op l r hop
    cases op
    case Plus => exact absurd rfl hop
    all_goals simp [interp_expression]
  · intro fuel env op e
    simp [interp_expression]

/-- Witness for C1: the subtraction `1 - 2` and the negation `!true` each
abort. -/
theorem C1_non_plus_binary_and_unary_abort_witness :
    Operator.Minus ≠ Operator.Plus ∧
    interp_expression 1 Environment.new (.Binary .Minus (.Num 1) (.Num 2)) = .abort ∧
    interp_expression 1 Environment.new (.Unary .LogicNot (.Bool true)) = .abort :=
  ⟨by decide,
   C1_non_plus_binary_and_unary_abort.1 1 Environment.new .Minus (.Num 1) (.Num 2) (by decide),
   C1_non_plus_binary_and_unary_abort.2 1 Environment.new .LogicNot (.Bool true)⟩

/-- Counterexample to C2: interpreting `Assign("x", 7)` in a fresh
environment, where no binding for `x` is reachable, does not yield
`UnknownVariable("x")` — it succeeds, silently creating the binding. -/
theorem C2_assign_unbound_succeeds :
    interp_statement 1 Environment.new (.Assign "x" (.Num 7)) false =
      .ok (.Void, .Normal, [[("x", .Num 7)]]) ∧
    interp_statement 1 Environment.new (.Assign "x" (.Num 7)) false ≠
      .err (.RuntimeError (.UnknownVariable "x")) := by
  constructor
  · simp [interp_statement, interp_expression, Environment.new, Environment.update,
          scope_update]
  · simp [interp_statement, interp_expression, Environment.new, Environment.update,
          scope_update]

/-- C2 (amended): `Assign(x, e)` is interpreted exactly like `Let(x, e)` —
both evaluate `e` and then call the environment's unconditional
insert-or-overwrite (`env.update`), so assignment to an unbound name binds it
in the current scope instead of erroring, and a binding in an outer scope is
shadowed rather than mutated where found. -/
theorem C2_assign_behaves_as_let (fuel : Nat) (env : Environment) (x : String)
    (e : Expr) (il : Bool) :
    interp_statement fuel env (.Assign x e) il = interp_statement fuel env (.Let x e) il := by
  simp [interp_statement]

/-- C3: the desugarer is not total on the statement type the parser produces:
`parse_statement` parses `const x = 1;` to a `Const` statement and `x += 1;`
to an `OperatorAssignment` statement, and `desugar_statement` has no match
arm for either form (`none` marks the missing arm). -/
theorem C3_desugar_misses_parser_forms :
    parse_statement 30 [tk (.KW .Const), tk (.ID "x"), tk .ASSIGN, tk (.NUM 1),
        tk .SEMICOLON] true = .ok (some (.Const "x" (.Num 1))) [] ∧
    desugar_statement (.Const "x" (.Num 1)) = none ∧
    parse_statement 30 [tk (.ID "x"), tk (.ASSIGN_OP .PlusAssign), tk (.NUM 1),
        tk .SEMICOLON] true = .ok (some (.OperatorAssignment .PlusAssign "x" (.Num 1))) [] ∧
    desugar_statement (.OperatorAssignment .PlusAssign "x" (.Num 1)) = none :=
  ⟨rfl, rfl, rfl, rfl⟩

/-- C5: `For(init, cond, step, body)` desugars to a block whose two sibling
statements are the desugared `init` and a `While` of the desugared condition
whose body is the desugared `body` with the desugared `step` appended. -/
theorem C5_for_desugaring (init : SugaredStatement) (cond : SugaredExpr)
    (step : SugaredStatement) (body : List SugaredStatement)
    (di ds : Statement) (dc : Expr) (db : List Statement)
    (hinit : desugar_statement init = some di)
    (hcond : desugar_expression cond = some dc)
    (hstep : desugar_statement step = some ds)
    (hbody : desugar_statements body = some db) :
    desugar_statement (.For init cond step body) =
      some (.Block [di, .While dc (.Block (db ++ [ds]))]) := by
  simp [desugar_statement, hinit, hcond, hstep, hbody]

/-- Witness for C5: `for(let i = 0; b; i = 1) { break; }`. -/
theorem C5_for_desugaring_witness :
    desugar_statement (.For (.Let "i" (.Num 0)) (.Var "b") (.Assign "i" (.Num 1)) [.Break]) =
      some (.Block [.Let "i" (.Num 0),
        .While (.Var "b") (.Block ([.Break] ++ [.Assign "i" (.Num 1)]))]) :=
  C5_for_desugaring (.Let "i" (.Num 0)) (.Var "b") (.Assign "i" (.Num 1)) [.Break]
    (.Let "i" (.Num 0)) (.Assign "i" (.Num 1)) (.Var "b") [.Break] rfl rfl rfl rfl

/-- C9: the layered expression parser realizes the precedence tiers with left
associativity: `1 + 2 * 3` parses with the multiplication nested under the
addition, `a || b && c` parses with the conjunction nested under the
disjunction, and same-tier operators associate to the left
(`1 + 2 - 3` parses as `(1 + 2) - 3`). -/
theorem C9_precedence :
    parse_expr 30 [tk (.NUM 1), tk (.OP .Plus), tk (.NUM 2), tk (.OP .Times), tk (.NUM 3)] =
      .ok (.Binary .Plus (.Num 1) (.Binary .Times (.Num 2) (.Num 3))) [] ∧
    parse_expr 30 [tk (.ID "a"), tk (.OP .LogicOr), tk (.ID "b"), tk (.OP .LogicAnd),
        tk (.ID "c")] =
      .ok (.Binary .LogicOr (.Var "a") (.Binary .LogicAnd (.Var "b") (.Var "c"))) [] ∧
    parse_expr 30 [tk (.NUM 1), tk (.OP .Plus), tk (.NUM 2), tk (.OP .Minus), tk (.NUM 3)] =
      .ok (.Binary .Minus (.Binary .Plus (.Num 1) (.Num 2)) (.Num 3)) [] :=
  ⟨rfl, rfl, rfl⟩

/-- C8: for any operand expressions evaluating to values `lv` and `rv`, the
binary `+` yields the (64-bit) sum when both are `Num`, the left-then-right
concatenation when both are `Str`, and a `BadArg` runtime error on every
other combination of operand values (carrying the right operand when the left
is a `Num`, else the left operand). -/
theorem C8_plus_semantics (fuel : Nat) (env env₁ env₂ : Environment) (l r : Expr)
    (lv rv : Value)
    (hl : interp_expression fuel env l = .ok (lv, env₁))
    (hr : interp_expression fuel env₁ r = .ok (rv, env₂)) :
    (∀ a b, lv = .Num a → rv = .Num b →
      interp_expression fuel env (.Binary .Plus l r) = .ok (.Num (i64_add a b), env₂)) ∧
    (∀ a b, lv = .Str a → rv = .Str b →
      interp_expression fuel env (.Binary .Plus l r) = .ok (.Str (a ++ b), env₂)) ∧
    (∀ a, lv = .Num a → (∀ b, rv ≠ .Num b) →
      interp_expression fuel env (.Binary .Plus l r) =
        .err (.RuntimeError (.BadArg rv))) ∧
    ((∀ a, lv ≠ .Num a) → ¬(∃ a b, lv = .Str a ∧ rv = .Str b) →
      interp_expression fuel env (.Binary .Plus l r) =
        .err (.RuntimeError (.BadArg lv))) := by
  refine ⟨?_, ?_, ?_, ?_⟩
  · rintro a b rfl rfl
    simp [interp_expression, hl, hr]
  · rintro a b rfl rfl
    simp [interp_expression, hl, hr]
  · rintro a rfl hb
    cases rv with
    | Num b => exact absurd rfl (hb b)
    | Bool b => simp [interp_expression, hl, hr]
    | Str s => simp [interp_expression, hl, hr]
    | Lambda ps body cenv => simp [interp_expression, hl, hr]
    | Void => simp [interp_expression, hl, hr]
  · intro ha hs
    cases lv with
    | Num a => exact absurd rfl (ha a)
    | Str a =>
        cases rv with
        | Str b => exact absurd ⟨a, b, rfl, rfl⟩ hs
        | Num b => simp [interp_expression, hl, hr]
        | Bool b => simp [interp_expression, hl, hr]
        | Lambda ps body cenv => simp [interp_expression, hl, hr]
        | Void => simp [interp_expression, hl, hr]
    | Bool b => simp [interp_expression, hl, hr]
    | Lambda ps body cenv => simp [interp_expression, hl, hr]
    | Void => simp [interp_expression, hl, hr]

/-- Witness for C8: `1 + 2` is `3`, `"ab" + "cd"` is `"abcd"`, and the mixed
`1 + "a"` is a `BadArg` error. -/
theorem C8_plus_semantics_witness :
    interp_expression 0 Environment.new (.Binary .Plus (.Num 1) (.Num 2)) =
      .ok (.Num 3, Environment.new) ∧
    interp_expression 0 Environment.new (.Binary .Plus (.Str "ab") (.Str "cd")) =
      .ok (.Str "abcd", Environment.new) ∧
    interp_expression 0 Environment.new (.Binary .Plus (.Num 1) (.Str "a")) =
      .err (.RuntimeError (.BadArg (.Str "a"))) := by
  refine ⟨?_, ?_, ?_⟩
  · have h := (C8_plus_semantics 0 Environment.new Environment.new Environment.new
      (.Num 1) (.Num 2) (.Num 1) (.Num 2) (by simp [interp_expression])
      (by simp [interp_expression])).1 1 2 rfl rfl
    rw [h]
    norm_num [i64_add]
  · exact (C8_plus_semantics 0 Environment.new Environment.new Environment.new
      (.Str "ab") (.Str "cd") (.Str "ab") (.Str "cd") (by simp [interp_expression])
      (by simp [interp_expression])).2.1 "ab" "cd" rfl rfl
  · exact (C8_plus_semantics 0 Environment.new Environment.new Environment.new
      (.Num 1) (.Str "a") (.Num 1) (.Str "a") (by simp [interp_expression])
      (by simp [interp_expression])).2.2.1 1 rfl (by intro b h; cases h)

/-- C7: (1) a `Break` signal from a `while` body terminates that (innermost)
loop, which yields `Void` with `Normal` control flow; (2) a `Continue` signal
re-enters that loop's condition check; (3)/(4) a block relays a `Break`
upward when it is inside a loop and fails with `BreakNotInLoop` when it is
not; (5)/(6) the same for `Continue` with `ContinueNotInLoop`; (7) the
`break`/`continue` statements themselves yield their signals with `Void`;
(8)/(9) a call evaluates the callee's body with the in-loop flag `false`, so
a `break`/`continue` at the top of a called lambda's body fails with the
respective error regardless of the call site; (10)/(11) `main`'s body is also
evaluated with the in-loop flag `false`, so a top-level `break`/`continue`
fails likewise. -/
theorem C7_break_continue :
    (∀ (fuel : Nat) (env env₁ env₂ : Environment) (c : Expr) (body : Statement)
        (il : Bool) (v : Value),
      interp_expression fuel env c = .ok (.Bool true, env₁) →
      interp_statement fuel env₁ body true = .ok (v, .Break, env₂) →
      interp_statement fuel env (.While c body) il = .ok (.Void, .Normal, env₂)) ∧
    (∀ (f : Nat) (env env₁ env₂ : Environment) (c : Expr) (body : Statement)
        (il : Bool) (v : Value),
      interp_expression (f + 1) env c = .ok (.Bool true, env₁) →
      interp_statement (f + 1) env₁ body true = .ok (v, .Continue, env₂) →
      interp_statement (f + 1) env (.While c body) il =
        interp_statement f env₂ (.While c body) il) ∧
    (∀ (fuel : Nat) (env env' : Environment) (s : Statement) (rest : List Statement)
        (v : Value),
      interp_statement fuel env s true = .ok (v, .Break, env') →
      interp_statement fuel env (.Block (s :: rest)) true = .ok (v, .Break, env')) ∧
    (∀ (fuel : Nat) (env env' : Environment) (s : Statement) (rest : List Statement)
        (v : Value),
      interp_statement fuel env s false = .ok (v, .Break, env') →
      interp_statement fuel env (.Block (s :: rest)) false =
        .err (.RuntimeError .BreakNotInLoop)) ∧
    (∀ (fuel : Nat) (env env' : Environment) (s : Statement) (rest : List Statement)
        (v : Value),
      interp_statement fuel env s true = .ok (v, .Continue, env') →
      interp_statement fuel env (.Block (s :: rest)) true = .ok (v, .Continue, env')) ∧
    (∀ (fuel : Nat) (env env' : Environment) (s : Statement) (rest : List Statement)
        (v : Value),
      interp_statement fuel env s false = .ok (v, .Continue, env') →
      interp_statement fuel env (.Block (s :: rest)) false =
        .err (.RuntimeError .ContinueNotInLoop)) ∧
    (∀ (fuel : Nat) (env : Environment) (il : Bool),
      interp_statement fuel env .Break il = .ok (.Void, .Break, env) ∧
      interp_statement fuel env .Continue il = .ok (.Void, .Continue, env)) ∧
    (∀ (f : Nat) (env cenv : Environment) (fname : String) (rest : List Statement),
      Environment.get env fname = .ok (.Lambda [] (.Block (.Break :: rest)) cenv) →
      interp_expression (f + 1) env (.Call (.Var fname) []) =
        .err (.RuntimeError .BreakNotInLoop)) ∧
    (∀ (f : Nat) (env cenv : Environment) (fname : String) (rest : List Statement),
      Environment.get env fname = .ok (.Lambda [] (.Block (.Continue :: rest)) cenv) →
      interp_expression (f + 1) env (.Call (.Var fname) []) =
        .err (.RuntimeError .ContinueNotInLoop)) ∧
    (∀ (fuel : Nat) (p : Program) (rest : List Statement),
      p.main = .Block (.Break :: rest) →
      interp_program fuel p = .err (.RuntimeError .BreakNotInLoop)) ∧
    (∀ (fuel : Nat) (p : Program) (rest : List Statement),
      p.main = .Block (.Continue :: rest) →
      interp_program fuel p = .err (.RuntimeError .ContinueNotInLoop)) := by
  refine ⟨?_, ?_, ?_, ?_, ?_, ?_, ?_, ?_, ?_, ?_, ?_⟩
  · intro fuel env env₁ env₂ c body il v hc hb
    rw [interp_statement.eq_def]
    simp [hc, hb]
  · intro f env env₁ env₂ c body il v hc hb
    rw [interp_statement.eq_def]
    simp [hc, hb]
  · intro fuel env env' s rest v h
    simp [interp_statement, interp_block, h]
  · intro fuel env env' s rest v h
    simp [interp_statement, interp_block, h]
  · intro fuel env env' s rest v h
    simp [interp_statement, interp_block, h]
  · intro fuel env env' s rest v h
    simp [interp_statement, interp_block, h]
  · intro fuel env il
    constructor <;> simp [interp_statement]
  · intro f env cenv fname rest hget
    simp [interp_expression, interp_args, interp_statement, interp_block, hget,
          Environment.extend]
  · intro f env cenv fname rest hget
    simp [interp_expression, interp_args, interp_statement, interp_block, hget,
          Environment.extend]
  · intro fuel p rest hmain
    simp [interp_program, hmain, interp_statement, interp_block]
  · intro fuel p rest hmain
    simp [interp_program, hmain, interp_statement, interp_block]

/-- Witness for C7, instantiating every part on concrete programs: a loop
whose body breaks, a loop whose body continues, blocks relaying or rejecting
the two signals, the bare signal statements, a call to a lambda that breaks
(resp. continues) at the top of its body, and a program whose `main` starts
with `break` (resp. `continue`). -/
theorem C7_break_continue_witness :
    interp_statement 1 Environment.new (.While (.Bool true) .Break) false =
      .ok (.Void, .Normal, Environment.new) ∧
    interp_statement 2 Environment.new (.While (.Bool true) .Continue) false =
      interp_statement 1 Environment.new (.While (.Bool true) .Continue) false ∧
    interp_statement 1 Environment.new (.Block [.Break]) true =
      .ok (.Void, .Break, Environment.new) ∧
    interp_statement 1 Environment.new (.Block [.Break]) false =
      .err (.RuntimeError .BreakNotInLoop) ∧
    interp_statement 1 Environment.new (.Block [.Continue]) true =
      .ok (.Void, .Continue, Environment.new) ∧
    interp_statement 1 Environment.new (.Block [.Continue]) false =
      .err (.RuntimeError .ContinueNotInLoop) ∧
    interp_statement 1 Environment.new .Break true = .ok (.Void, .Break, Environment.new) ∧
    interp_expression 1
      (Environment.update Environment.new "f" (.Lambda [] (.Block [.Break]) Environment.new))
      (.Call (.Var "f") []) = .err (.RuntimeError .BreakNotInLoop) ∧
    interp_expression 1
      (Environment.update Environment.new "g" (.Lambda [] (.Block [.Continue]) Environment.new))
      (.Call (.Var "g") []) = .err (.RuntimeError .ContinueNotInLoop) ∧
    interp_program 3 { procedures := [], main := .Block [.Break] } =
      .err (.RuntimeError .BreakNotInLoop) ∧
    interp_program 3 { procedures := [], main := .Block [.Continue] } =
      .err (.RuntimeError .ContinueNotInLoop) :=
  ⟨C7_break_continue.1 1 Environment.new Environment.new Environment.new (.Bool true)
      .Break false .Void (by simp [interp_expression]) (by simp [interp_statement]),
   C7_break_continue.2.1 1 Environment.new Environment.new Environment.new (.Bool true)
      .Continue false .Void (by simp [interp_expression]) (by simp [interp_statement]),
   C7_break_continue.2.2.1 1 Environment.new Environment.new .Break [] .Void
      (by simp [interp_statement]),
   C7_break_continue.2.2.2.1 1 Environment.new Environment.new .Break [] .Void
      (by simp [interp_statement]),
   C7_break_continue.2.2.2.2.1 1 Environment.new Environment.new .Continue [] .Void
      (by simp [interp_statement]),
   C7_break_continue.2.2.2.2.2.1 1 Environment.new Environment.new .Continue [] .Void
      (by simp [interp_statement]),
   (C7_break_continue.2.2.2.2.2.2.1 1 Environment.new true).1,
   C7_break_continue.2.2.2.2.2.2.2.1 0
      (Environment.update Environment.new "f" (.Lambda [] (.Block [.Break]) Environment.new))
      Environment.new "f" []
      (by simp [Environment.update, Environment.new, scope_update, Environment.get,
                scope_lookup]),
   C7_break_continue.2.2.2.2.2.2.2.2.1 0
      (Environment.update Environment.new "g" (.Lambda [] (.Block [.Continue]) Environment.new))
      Environment.new "g" []
      (by simp [Environment.update, Environment.new, scope_update, Environment.get,
                scope_lookup]),
   C7_break_continue.2.2.2.2.2.2.2.2.2.1 3 { procedures := [], main := .Block [.Break] }
      [] rfl,
   C7_break_continue.2.2.2.2.2.2.2.2.2.2 3 { procedures := [], main := .Block [.Continue] }
      [] rfl⟩

/-! Lemmas about lookup in the initial environment and in a call-entry
environment. -/

theorem scope_lookup_update (s : Scope) (n x : String) (v : Value) :
    scope_lookup (scope_update s n v) x = if n = x then some v else scope_lookup s x := by
  induction s with
  | nil => by_cases hnx : n = x <;> simp [scope_update, scope_lookup, hnx]
  | cons hd tl ih =>
      obtain ⟨m, w⟩ := hd
      by_cases hmn : m = n <;> by_cases hnx : n = x <;> by_cases hmx : m = x <;>
        simp_all [scope_update, scope_lookup]

theorem env_fold_update_single_scope (procs : List Procedure) (s : Scope) :
    List.foldl (fun (env : Environment) (p : Procedure) =>
        env.update p.name (.Lambda p.params p.body Environment.new)) [s] procs =
      [List.foldl (fun (sc : Scope) (p : Procedure) =>
        scope_update sc p.name (.Lambda p.params p.body Environment.new)) s procs] := by
  induction procs generalizing s with
  | nil => rfl
  | cons p rest ih =>
      exact ih (scope_update s p.name (.Lambda p.params p.body Environment.new))

theorem scope_fold_lookup_of_not_named (procs : List Procedure) (s : Scope) (x : String)
    (h : ∀ q ∈ procs, q.name ≠ x) :
    scope_lookup (List.foldl (fun (sc : Scope) (p : Procedure) =>
        scope_update sc p.name (.Lambda p.params p.body Environment.new)) s procs) x =
      scope_lookup s x := by
  induction procs generalizing s with
  | nil => rfl
  | cons p rest ih =>
      have hp : p.name ≠ x := h p (by simp)
      have hrest : ∀ q ∈ rest, q.name ≠ x := fun q hq => h q (by simp [hq])
      simp only [List.foldl]
      rw [ih _ hrest, scope_lookup_update]
      simp [hp]

theorem initial_env_get_of_not_named (procs : List Procedure) (x : String)
    (h : ∀ q ∈ procs, q.name ≠ x) :
    Environment.get (initial_env procs) x = .err (.RuntimeError (.UnknownVariable x)) := by
  have h1 : initial_env procs =
      [List.foldl (fun (sc : Scope) (p : Procedure) =>
        scope_update sc p.name (.Lambda p.params p.body Environment.new)) [] procs] :=
    env_fold_update_single_scope procs []
  rw [h1]
  have h2 := scope_fold_lookup_of_not_named procs [] x h
  simp [Environment.get, h2, scope_lookup]

theorem scope_fold_lookup_of_named (procs : List Procedure) (s : Scope) (x : String)
    (h : ∃ q ∈ procs, q.name = x) :
    ∃ ps b, scope_lookup (List.foldl (fun (sc : Scope) (p : Procedure) =>
        scope_update sc p.name (.Lambda p.params p.body Environment.new)) s procs) x =
      some (.Lambda ps b Environment.new) := by
  induction procs generalizing s with
  | nil => simp at h
  | cons p rest ih =>
      by_cases hrest : ∃ q ∈ rest, q.name = x
      · simpa only [List.foldl] using ih _ hrest
      · push_neg at hrest
        have hp : p.name = x := by
          rcases h with ⟨q, hq, hqx⟩
          rcases List.mem_cons.mp hq with h1 | h2
          · rw [← h1]; exact hqx
          · exact absurd hqx (hrest q h2)
        refine ⟨p.params, p.body, ?_⟩
        simp only [List.foldl]
        rw [scope_fold_lookup_of_not_named _ _ _ hrest, scope_lookup_update]
        simp [hp]

theorem initial_env_get_of_named (procs : List Procedure) (x : String)
    (h : ∃ q ∈ procs, q.name = x) :
    ∃ ps b, Environment.get (initial_env procs) x = .ok (.Lambda ps b Environment.new) := by
  have h1 : initial_env procs =
      [List.foldl (fun (sc : Scope) (p : Procedure) =>
        scope_update sc p.name (.Lambda p.params p.body Environment.new)) [] procs] :=
    env_fold_update_single_scope procs []
  rcases scope_fold_lookup_of_named procs [] x h with ⟨ps, b, hlook⟩
  refine ⟨ps, b, ?_⟩
  rw [h1]
  simp [Environment.get, hlook]

theorem zip_lookup_not_mem (ps : List String) (vs : List Value) (x : String)
    (h : x ∉ ps) :
    scope_lookup (ps.zip vs) x = none := by
  induction ps generalizing vs with
  | nil => rfl
  | cons a as ih =>
      cases vs with
      | nil => rfl
      | cons v vs' =>
          have hax : a ≠ x := by
            rintro rfl
            exact h (List.mem_cons_self a as)
          have h' : x ∉ as := fun hx => h (List.mem_cons_of_mem _ hx)
          have htl : scope_lookup (as.zip vs') x = none := ih vs' h'
          simp [scope_lookup, hax]
          exact htl

/-- C4: a successfully parsed program never contains a procedure named `main`
in its procedure set (`parse_program` partitions it out), so `main` is not
bound in the interpreter's initial global environment, and evaluating the
variable `main` there yields `UnknownVariable("main")` instead of a recursive
reference. -/
theorem C4_main_not_bound (fuel : Nat) (tokens : List Token) (p : Program)
    (hp : parse_program fuel tokens = .ok p) :
    (∀ q ∈ p.procedures, q.name ≠ "main") ∧
    ∀ (ifuel : Nat),
      interp_expression ifuel (initial_env p.procedures) (.Var "main") =
        .err (.RuntimeError (.UnknownVariable "main")) := by
  have hnames : ∀ q ∈ p.procedures, q.name ≠ "main" := by
    cases fuel with
    | zero => simp [parse_program] at hp
    | succ f =>
        simp only [parse_program] at hp
        cases hpp : parse_procs f tokens with
        | timeout => simp [hpp] at hp
        | err e => simp [hpp] at hp
        | ok procedures rest =>
            simp only [hpp] at hp
            by_cases hre : rest.isEmpty
            · simp only [hre, if_true] at hp
              cases hdp : desugar_procs procedures with
              | none => simp [hdp] at hp
              | some dps =>
                  simp only [hdp] at hp
                  rw [List.partition_eq_filter_filter] at hp
                  cases hmp : dps.filter (fun proc => proc.name == "main") with
                  | nil => simp [hmp] at hp
                  | cons mp mps =>
                      simp only [hmp, Res.ok.injEq] at hp
                      subst hp
                      intro q hq
                      have hfq := List.of_mem_filter hq
                      simp only [Function.comp_apply, Bool.not_eq_true'] at hfq
                      intro hqeq
                      simp [hqeq] at hfq
            · simp [hre] at hp
  refine ⟨hnames, fun ifuel => ?_⟩
  simp [interp_expression, initial_env_get_of_not_named p.procedures "main" hnames]

/-- Witness for C4: the one-procedure program `proc main() {}` parses, its
procedure set is empty, and the variable `main` is unknown in its initial
environment. -/
theorem C4_main_not_bound_witness :
    interp_expression 1
        (initial_env ({ procedures := [], main := .Block [] } : Program).procedures)
        (.Var "main") = .err (.RuntimeError (.UnknownVariable "main")) :=
  (C4_main_not_bound 30
    [tk (.KW .Proc), tk (.ID "main"), tk .LPAREN, tk .RPAREN, tk .LBRACKET, tk .RBRACKET]
    { procedures := [], main := .Block [] } rfl).2 1

/-- C10: (1) every procedure of a program is bound in the initial environment
to a `Lambda` whose captured environment is the empty environment
`Environment.new`; (2) the environment a call enters is the captured
environment extended with only the parameter bindings, so any name outside
the parameter list is unreachable there; (3) hence calling a procedure (a
lambda capturing `Environment.new`) whose body starts by reading a name `x`
that is not among its parameters — for example the name of another top-level
procedure, or its own — fails with `UnknownVariable(x)`. -/
theorem C10_procedures_close_over_nothing :
    (∀ (procs : List Procedure) (x : String), (∃ q ∈ procs, q.name = x) →
      ∃ ps b, Environment.get (initial_env procs) x =
        .ok (.Lambda ps b Environment.new)) ∧
    (∀ (ps : List String) (vs : List Value) (x : String), x ∉ ps →
      Environment.get (Environment.extend Environment.new (ps.zip vs)) x =
        .err (.RuntimeError (.UnknownVariable x))) ∧
    (∀ (f : Nat) (env env₂ : Environment) (fname x : String) (ps : List String)
        (args : List Expr) (vs : List Value) (rest : List Statement),
      Environment.get env fname =
        .ok (.Lambda ps (.Block (.Expr (.Var x) :: rest)) Environment.new) →
      args.length = ps.length →
      interp_args (f + 1) env args = .ok (vs, env₂) →
      x ∉ ps →
      interp_expression (f + 1) env (.Call (.Var fname) args) =
        .err (.RuntimeError (.UnknownVariable x))) := by
  have hextend : ∀ (ps : List String) (vs : List Value) (x : String), x ∉ ps →
      Environment.get (Environment.extend Environment.new (ps.zip vs)) x =
        .err (.RuntimeError (.UnknownVariable x)) := by
    intro ps vs x hx
    simp [Environment.extend, Environment.new, Environment.get,
          zip_lookup_not_mem ps vs x hx, scope_lookup]
  refine ⟨initial_env_get_of_named, hextend, ?_⟩
  intro f env env₂ fname x ps args vs rest hget hlen hargs hx
  have hcallee : interp_expression (f + 1) env (.Var fname) =
      .ok (.Lambda ps (.Block (.Expr (.Var x) :: rest)) Environment.new, env) := by
    simp [interp_expression, hget]
  have hbody : interp_statement f (Environment.extend Environment.new (ps.zip vs))
      (.Block (.Expr (.Var x) :: rest)) false =
        .err (.RuntimeError (.UnknownVariable x)) := by
    simp [interp_statement, interp_block, interp_expression, hextend ps vs x hx]
  rw [interp_expression.eq_def]
  simp [hcallee, hlen, hargs, hbody]

/-- Witness for C10: in the program with procedures `f` (whose body reads
`g`) and `g`, calling `f` fails with `UnknownVariable("g")` even though `g`
is a top-level procedure. -/
theorem C10_procedures_close_over_nothing_witness :
    interp_expression 1
        (initial_env [⟨"f", [], .Block [.Expr (.Var "g")]⟩, ⟨"g", [], .Block []⟩])
        (.Call (.Var "f") []) = .err (.RuntimeError (.UnknownVariable "g")) :=
  C10_procedures_close_over_nothing.2.2 0
    (initial_env [⟨"f", [], .Block [.Expr (.Var "g")]⟩, ⟨"g", [], .Block []⟩])
    (initial_env [⟨"f", [], .Block [.Expr (.Var "g")]⟩, ⟨"g", [], .Block []⟩])
    "f" "g" [] [] [] [] rfl rfl (by simp [interp_args]) (by simp)

/-! Lemmas for the else-if chain: the desugarer's `rfold` produces the nested
binary `If` chain, and evaluating such a chain runs the branch of the first
true condition. -/

theorem desugar_else_ifs_eq_foldr (eis : List (SugaredExpr × SugaredStatement))
    (dpairs : List (Expr × Statement)) (dels : Option Statement)
    (h : List.Forall₂ (fun (pq : SugaredExpr × SugaredStatement) (dq : Expr × Statement) =>
      desugar_expression pq.1 = some dq.1 ∧ desugar_statement pq.2 = some dq.2) eis dpairs) :
    desugar_else_ifs eis dels =
      some (dpairs.foldr (fun dq acc => some (.If dq.1 dq.2 acc)) dels) := by
  induction h with
  | nil => rfl
  | @cons pq dq eis' dpairs' hpq htail ih =>
      obtain ⟨c, b⟩ := pq
      obtain ⟨dc, db⟩ := dq
      simp only at hpq
      simp [desugar_else_ifs, ih, hpq.1, hpq.2]

theorem if_chain_first_true (fuel : Nat) (env : Environment) (il : Bool)
    (dpairs : List (Expr × Statement)) (bs : List Bool) (dels : Option Statement)
    (hconds : List.Forall₂ (fun (dq : Expr × Statement) (b : Bool) =>
      interp_expression fuel env dq.1 = .ok (.Bool b, env)) dpairs bs) :
    ∀ (chain : Statement),
      dpairs.foldr (fun dq acc => some (.If dq.1 dq.2 acc)) dels = some chain →
      interp_statement fuel env chain il =
        match (dpairs.zip bs).find? (fun qb => qb.2) with
        | some qb => interp_statement fuel env qb.1.2 il
        | none =>
            match dels with
            | some es => interp_statement fuel env es il
            | none => .ok (.Void, .Normal, env) := by
  induction hconds with
  | nil =>
      intro chain hchain
      simp only [List.foldr] at hchain
      subst hchain
      simp [List.find?]
  | @cons dq b dpairs' bs' hdq htail ih =>
      intro chain hchain
      obtain ⟨q1, q2⟩ := dq
      simp only [List.foldr, Option.some.injEq] at hchain
      subst hchain
      simp only at hdq
      rw [interp_statement.eq_def]
      simp only [hdq, Res.bind_def, Res.bind_ok]
      cases b with
      | true => simp [List.find?]
      | false =>
          cases hacc : List.foldr
              (fun (dq : Expr × Statement) acc => some (.If dq.1 dq.2 acc)) dels dpairs' with
          | some es =>
              have := ih es hacc
              simp [List.find?, this]
              rfl
          | none =>
              cases htail with
              | nil =>
                  simp only [List.foldr] at hacc
                  subst hacc
                  simp [List.find?]
              | cons h2 t2 => simp [List.foldr] at hacc

/-- C6: (1) desugaring `If(cond, then, elseIfs, elseOpt)` right-folds the
else-if list from the desugared else branch outward into nested binary `If`
nodes and wraps the outer `If` of the desugared `(cond, then)` around the
result; (2) evaluating such a nested chain runs exactly the branch attached
to the first condition that evaluates to `true`, the else statement when
every condition is `false`, and yields `Void` with `Normal` flow when every
condition is `false` and there is no else.  (The outer `(cond, then)` pair is
the head of the pair list in part (2).) -/
theorem C6_else_if_folding :
    (∀ (c : SugaredExpr) (t : SugaredStatement)
        (eis : List (SugaredExpr × SugaredStatement)) (els : Option SugaredStatement)
        (dc : Expr) (dt : Statement) (dpairs : List (Expr × Statement))
        (dels : Option Statement),
      desugar_expression c = some dc →
      desugar_statement t = some dt →
      List.Forall₂ (fun (pq : SugaredExpr × SugaredStatement) (dq : Expr × Statement) =>
        desugar_expression pq.1 = some dq.1 ∧ desugar_statement pq.2 = some dq.2) eis dpairs →
      (els = none ∧ dels = none ∨
        ∃ eb deb, els = some eb ∧ dels = some deb ∧ desugar_statement eb = some deb) →
      desugar_statement (.If c t eis els) =
        some (.If dc dt (dpairs.foldr (fun dq acc => some (.If dq.1 dq.2 acc)) dels))) ∧
    (∀ (fuel : Nat) (env : Environment) (il : Bool) (dpairs : List (Expr × Statement))
        (bs : List Bool) (dels : Option Statement) (chain : Statement),
      List.Forall₂ (fun (dq : Expr × Statement) (b : Bool) =>
        interp_expression fuel env dq.1 = .ok (.Bool b, env)) dpairs bs →
      dpairs.foldr (fun dq acc => some (.If dq.1 dq.2 acc)) dels = some chain →
      interp_statement fuel env chain il =
        match (dpairs.zip bs).find? (fun qb => qb.2) with
        | some qb => interp_statement fuel env qb.1.2 il
        | none =>
            match dels with
            | some es => interp_statement fuel env es il
            | none => .ok (.Void, .Normal, env)) := by
  constructor
  · intro c t eis els dc dt dpairs dels hc ht hf hels
    have hfold := desugar_else_ifs_eq_foldr eis dpairs dels hf
    rcases hels with ⟨rfl, rfl⟩ | ⟨eb, deb, rfl, rfl, heb⟩
    · simp [desugar_statement, hc, ht, hfold]
    · simp [desugar_statement, hc, ht, heb, hfold]
  · intro fuel env il dpairs bs dels chain hconds hchain
    exact if_chain_first_true fuel env il dpairs bs dels hconds chain hchain

/-- Witness for C6: `if(true){1} else if(false){2} else {3}` desugars to the
two nested binary `If`s, and in the chain whose conditions evaluate to
`false` then `true`, evaluation runs exactly the second branch. -/
theorem C6_else_if_folding_witness :
    desugar_statement (.If (.Bool true) (.Block [.Expr (.Num 1)])
        [(.Bool false, .Block [.Expr (.Num 2)])] (some (.Block [.Expr (.Num 3)]))) =
      some (.If (.Bool true) (.Block [.Expr (.Num 1)])
        (some (.If (.Bool false) (.Block [.Expr (.Num 2)])
          (some (.Block [.Expr (.Num 3)]))))) ∧
    interp_statement 0 Environment.new
        (.If (.Bool false) (.Expr (.Num 1)) (some (.If (.Bool true) (.Expr (.Num 2)) none)))
        false =
      interp_statement 0 Environment.new (.Expr (.Num 2)) false :=
  ⟨C6_else_if_folding.1 (.Bool true) (.Block [.Expr (.Num 1)])
    [(.Bool false, .Block [.Expr (.Num 2)])] (some (.Block [.Expr (.Num 3)]))
    (.Bool true) (.Block [.Expr (.Num 1)])
    [(.Bool false, .Block [.Expr (.Num 2)])] (some (.Block [.Expr (.Num 3)]))
    rfl rfl (List.Forall₂.cons ⟨rfl, rfl⟩ List.Forall₂.nil)
    (Or.inr ⟨.Block [.Expr (.Num 3)], .Block [.Expr (.Num 3)], rfl, rfl, rfl⟩),
   C6_else_if_folding.2 0 Environment.new false
    [(.Bool false, .Expr (.Num 1)), (.Bool true, .Expr (.Num 2))] [false, true] none
    (.If (.Bool false) (.Expr (.Num 1)) (some (.If (.Bool true) (.Expr (.Num 2)) none)))
    (List.Forall₂.cons (by simp [interp_expression])
      (List.Forall₂.cons (by simp [interp_expression]) List.Forall₂.nil))
    rfl⟩

end Linger
